import Mathlib

/-!
Shallow embedding of `litellm/router_strategy/provider_budgets.py`
(class `ProviderBudgetLimiting`): a budget-aware admission filter over
candidate deployments plus a spend recorder, with the shared counter
store abstracted at its interface.

Modelling conventions:
* Python floats carrying money amounts are modelled as rationals (ℚ);
  no verified property depends on floating-point rounding.
* Python dicts are insertion-ordered association lists (`dictGet` /
  `dictInsert` model `d.get(k)` / `d[k] = v`).
* Fallible Python code returns `Except PyError`; `raise` is
  `Except.error`, and an uncaught exception propagates through the
  `Except` bind.
* `litellm.get_llm_provider` (outside this module) is an opaque
  parameter of the class model; the shared `DualCache` (outside this
  module) is an opaque batch-read function for the filter, and the
  recorder's single write is returned as an explicit increment
  instruction `(key, value, ttl)`.
* `random.choice` is modelled by an explicit random index `rng`;
  the chosen element is `potential[rng % potential.length]`.
-/

deriving instance DecidableEq for Except

namespace ProviderBudgets

/-- Python exception values raised or propagated by provider_budgets.py.
`valueError` models `ValueError` (the modelled message keeps the leading
text of the Python f-string; interpolated reprs of whole config objects
are dropped), `indexError` models `IndexError` from list indexing, and
`exn` stands for an arbitrary exception propagated from a collaborator. -/
inductive PyError where
  | valueError (msg : String)
  | indexError
  | exn (msg : String)
deriving Repr, DecidableEq

/-- litellm.types.router.ProviderBudgetInfo: a provider's budget limit and
time period (for example "1d"). -/
structure ProviderBudgetInfo where
  budget_limit : ℚ
  time_period : String
deriving Repr, DecidableEq

/-- ASCII whitespace stripped by Python's int(str) conversion. -/
def pyIsSpace (c : Char) : Bool :=
  c = ' ' || c = '\t' || c = '\n' || c = '\r' || c = '\x0b' || c = '\x0c'

/-- Strip leading and trailing whitespace, as Python's int(str) does. -/
def pyStrip (cs : List Char) : List Char :=
  ((cs.dropWhile pyIsSpace).reverse.dropWhile pyIsSpace).reverse

/-- Digit run as accepted by Python's int(str) after the sign: decimal
digits with single underscores allowed between digits. -/
def pyDigitsAux : List Char → Nat → Option Nat
  | [], acc => some acc
  | '_' :: c :: cs, acc =>
    if c.isDigit then pyDigitsAux (c :: cs) acc else none
  | ['_'], _ => none
  | c :: cs, acc =>
    if c.isDigit then pyDigitsAux cs (acc * 10 + (c.toNat - '0'.toNat)) else none

/-- Nonempty digit run (first character must be a digit, no leading
underscore), as accepted by Python's int(str). -/
def pyDigits : List Char → Option Nat
  | [] => none
  | c :: cs => if c.isDigit then pyDigitsAux (c :: cs) 0 else none

/-- Python's int(str) on ASCII input: optional surrounding whitespace, an
optional single sign, then digits with single underscores between digits.
Returns none where Python raises ValueError. -/
def pyInt (s : String) : Option Int :=
  match pyStrip s.data with
  | '+' :: rest => (pyDigits rest).map (fun n => (n : Int))
  | '-' :: rest => (pyDigits rest).map (fun n => -(n : Int))
  | rest => (pyDigits rest).map (fun n => (n : Int))

/-- Python s.endswith("d") for the one-character suffix the source tests. -/
def endsWithD (s : String) : Bool := s.data.getLast? == some 'd'

/-- Python s[:-1]: the string without its last character. -/
def dropLastChar (s : String) : String := String.mk s.data.dropLast

/-- ProviderBudgetLimiting.get_ttl_seconds: convert a time period such as
"1d" or "30d" to seconds; any string not ending in "d" raises
ValueError("Unsupported time period format: ..."), and a "d"-suffixed
string whose remainder is not an int literal raises the ValueError coming
from int() itself. -/
def get_ttl_seconds (time_period : String) : Except PyError Int :=
  if endsWithD time_period then
    match pyInt (dropLastChar time_period) with
    | some days => Except.ok (days * 24 * 60 * 60)
    | none =>
      Except.error
        (.valueError ("invalid literal for int() with base 10: " ++ dropLastChar time_period))
  else
    Except.error (.valueError ("Unsupported time period format: " ++ time_period))

example : get_ttl_seconds "1d" = Except.ok 86400 := rfl
example : get_ttl_seconds "30d" = Except.ok 2592000 := rfl
example : pyInt " -3 " = some (-3) := rfl
example : pyInt "1_0" = some 10 := rfl
example : pyInt "1__0" = none := rfl
example : pyInt "" = none := rfl

/-- Python d.get(k, None) on an insertion-ordered association list. -/
def dictGet {α : Type} (d : List (String × α)) (k : String) : Option α :=
  (d.find? (fun e => e.1 == k)).map (fun e => e.2)

/-- Python dict assignment d[k] = v: overwrite the value in place when the
key is present (keeping its position), otherwise append the new pair. -/
def dictInsert {α : Type} (d : List (String × α)) (k : String) (v : α) :
    List (String × α) :=
  if d.any (fun e => e.1 == k) then
    d.map (fun e => if e.1 == k then (k, v) else e)
  else d ++ [(k, v)]

/-- The ProviderBudgetLimiting instance state. A deployment is an opaque
record of the router; deriving its provider goes through
litellm.get_llm_provider (outside this module), modelled as the fallible
function `get_llm_provider`. `provider_budget_config` is the registry
dict passed to `__init__`. -/
structure ProviderBudgetLimiting (Dep : Type) where
  provider_budget_config : List (String × ProviderBudgetInfo)
  get_llm_provider : Dep → Except PyError String

/-- ProviderBudgetLimiting._get_budget_config_for_provider:
`self.provider_budget_config.get(provider, None)`. -/
def _get_budget_config_for_provider {Dep : Type} (plb : ProviderBudgetLimiting Dep)
    (provider : String) : Option ProviderBudgetInfo :=
  dictGet plb.provider_budget_config provider

/-- ProviderBudgetLimiting._get_llm_provider_for_deployment: calls
litellm.get_llm_provider on the deployment's params; its `try`/`except`
block re-raises the caught exception unchanged, so the whole body is the
underlying fallible derivation. -/
def _get_llm_provider_for_deployment {Dep : Type} (plb : ProviderBudgetLimiting Dep)
    (deployment : Dep) : Except PyError String :=
  plb.get_llm_provider deployment

/-- The first loop of async_get_available_deployments: build the dict
`_provider_configs` mapping each candidate's provider to its (possibly
absent) budget config. A failing provider derivation propagates. The
inserted value is determined by the key, so dict overwrite keeps the
insertion-ordered association list faithful. -/
def collectProviderConfigsAux {Dep : Type} (plb : ProviderBudgetLimiting Dep) :
    List Dep → List (String × Option ProviderBudgetInfo) →
    Except PyError (List (String × Option ProviderBudgetInfo))
  | [], acc => Except.ok acc
  | deployment :: ds, acc =>
    match _get_llm_provider_for_deployment plb deployment with
    | Except.error e => Except.error e
    | Except.ok provider =>
      collectProviderConfigsAux plb ds
        (dictInsert acc provider (_get_budget_config_for_provider plb provider))

/-- The dict `_provider_configs` built from an empty dict. -/
def collectProviderConfigs {Dep : Type} (plb : ProviderBudgetLimiting Dep)
    (healthy_deployments : List Dep) :
    Except PyError (List (String × Option ProviderBudgetInfo)) :=
  collectProviderConfigsAux plb healthy_deployments []

/-- The dict comprehension `provider_configs`: keep only providers whose
budget config is not None. -/
def budgetedConfigs (pcs : List (String × Option ProviderBudgetInfo)) :
    List (String × ProviderBudgetInfo) :=
  pcs.filterMap (fun e => e.2.map (fun c => (e.1, c)))

/-- The `cache_keys` list: one f-string key per budgeted provider, in dict
order. -/
def cacheKeysOf (provider_configs : List (String × ProviderBudgetInfo)) :
    List String :=
  provider_configs.map (fun e => "provider_spend:" ++ e.1 ++ ":" ++ e.2.time_period)

/-- The default spend list `[0.0] * len(provider_configs)`. -/
def defaultSpends (k : Nat) : List (Option ℚ) := List.replicate k (some 0)

/-- `current_spends = _current_spends or [0.0] * len(provider_configs)`:
Python `or` takes the default when the batch result is None or an empty
list (both falsy), otherwise the result itself. -/
def normalizeSpends (res : Option (List (Option ℚ))) (k : Nat) : List (Option ℚ) :=
  match res with
  | none => defaultSpends k
  | some l => if l.isEmpty then defaultSpends k else l

/-- The `provider_spend_map` construction: for each budgeted provider (in
dict order, with its enumerate index) read `current_spends[idx]`, which
raises IndexError when the index is out of range, and map None entries to
0.0 (`float(current_spends[idx] or 0.0)`). -/
def buildSpendMap (spends : List (Option ℚ)) :
    List String → Nat → Except PyError (List (String × ℚ))
  | [], _ => Except.ok []
  | provider :: ps, idx =>
    match spends[idx]? with
    | none => Except.error PyError.indexError
    | some v =>
      match buildSpendMap spends ps (idx + 1) with
      | Except.error e => Except.error e
      | Except.ok rest => Except.ok ((provider, v.getD 0) :: rest)

/-- The second loop of async_get_available_deployments: keep a candidate
only when its provider has a budget config in `provider_configs` (a
candidate with `budget_config` None is skipped by `continue`) and its
current spend is strictly below the budget limit (`current_spend >=
budget_limit` skips). The provider derivation is re-run per candidate and
a failure propagates. -/
def filterDeployments {Dep : Type} (plb : ProviderBudgetLimiting Dep)
    (provider_configs : List (String × ProviderBudgetInfo))
    (provider_spend_map : List (String × ℚ)) : List Dep → Except PyError (List Dep)
  | [] => Except.ok []
  | deployment :: ds =>
    match _get_llm_provider_for_deployment plb deployment with
    | Except.error e => Except.error e
    | Except.ok provider =>
      match dictGet provider_configs provider with
      | none => filterDeployments plb provider_configs provider_spend_map ds
      | some budget_config =>
        let current_spend := (dictGet provider_spend_map provider).getD 0
        if budget_config.budget_limit ≤ current_spend then
          filterDeployments plb provider_configs provider_spend_map ds
        else
          match filterDeployments plb provider_configs provider_spend_map ds with
          | Except.error e => Except.error e
          | Except.ok rest => Except.ok (deployment :: rest)

/-- The body of async_get_available_deployments up to (and including) the
computation of `potential_deployments`, before the random choice. The
shared cache's batch read is the opaque `router_cache_batch_get`
(`self.router_cache.async_batch_get_cache`), invoked exactly once, on
`cache_keys`. -/
def potential_deployments_of {Dep : Type} (plb : ProviderBudgetLimiting Dep)
    (router_cache_batch_get : List String → Except PyError (Option (List (Option ℚ))))
    (healthy_deployments : List Dep) : Except PyError (List Dep) :=
  match collectProviderConfigs plb healthy_deployments with
  | Except.error e => Except.error e
  | Except.ok pcs =>
    match router_cache_batch_get (cacheKeysOf (budgetedConfigs pcs)) with
    | Except.error e => Except.error e
    | Except.ok _current_spends =>
      match
        buildSpendMap (normalizeSpends _current_spends (budgetedConfigs pcs).length)
          ((budgetedConfigs pcs).map (fun e => e.1)) 0 with
      | Except.error e => Except.error e
      | Except.ok provider_spend_map =>
        filterDeployments plb (budgetedConfigs pcs) provider_spend_map
          healthy_deployments

/-- ProviderBudgetLimiting.async_get_available_deployments: filter the
healthy deployments by provider budget, then `random.choice` among the
survivors (modelled by the explicit random index `rng`), or None when no
deployment survived. -/
def async_get_available_deployments {Dep : Type} (plb : ProviderBudgetLimiting Dep)
    (router_cache_batch_get : List String → Except PyError (Option (List (Option ℚ))))
    (healthy_deployments : List Dep) (rng : Nat) : Except PyError (Option Dep) :=
  match potential_deployments_of plb router_cache_batch_get healthy_deployments with
  | Except.error e => Except.error e
  | Except.ok potential =>
    if potential.isEmpty then Except.ok none
    else Except.ok potential[rng % potential.length]?

/-- litellm.types.utils.StandardLoggingPayload, restricted to the field the
recorder reads; `response_cost` absent from the payload dict is None here. -/
structure StandardLoggingPayload where
  response_cost : Option ℚ
deriving Repr, DecidableEq

/-- The kwargs of async_log_success_event, restricted to the fields read:
`standard_logging_object` (None when missing) and
`litellm_params["custom_llm_provider"]` (None when either dict key is
missing). -/
structure SuccessEventKwargs where
  standard_logging_object : Option StandardLoggingPayload
  custom_llm_provider : Option String
deriving Repr, DecidableEq

/-- ProviderBudgetLimiting.async_log_success_event. The single cache write
(`self.router_cache.async_increment_cache`) is external; its effect is
returned as the increment instruction (spend_key, response_cost,
ttl_seconds). `standard_logging_payload.get("response_cost", 0)` defaults
a missing cost to 0; a missing payload or provider raises ValueError. -/
def async_log_success_event {Dep : Type} (plb : ProviderBudgetLimiting Dep)
    (kwargs : SuccessEventKwargs) : Except PyError (String × ℚ × Int) :=
  match kwargs.standard_logging_object with
  | none => Except.error (.valueError "standard_logging_payload is required")
  | some standard_logging_payload =>
    let response_cost : ℚ := standard_logging_payload.response_cost.getD 0
    match kwargs.custom_llm_provider with
    | none => Except.error (.valueError "custom_llm_provider is required")
    | some custom_llm_provider =>
      match _get_budget_config_for_provider plb custom_llm_provider with
      | none =>
        Except.error
          (.valueError ("No budget config found for provider " ++ custom_llm_provider))
      | some budget_config =>
        let spend_key :=
          "provider_spend:" ++ custom_llm_provider ++ ":" ++ budget_config.time_period
        match get_ttl_seconds budget_config.time_period with
        | Except.error e => Except.error e
        | Except.ok ttl_seconds => Except.ok (spend_key, response_cost, ttl_seconds)

/-- Modelled from the spec: the shared store's atomic increment-with-expiry
(DualCache.async_increment_cache, outside src). It adds the amount to the
counter, creating it with the given TTL when absent; an increment on a
live key keeps the existing expiry. State is an association list of
(key, value, ttl). -/
def ledgerIncrement (st : List (String × ℚ × Int)) (key : String) (value : ℚ)
    (ttl : Int) : List (String × ℚ × Int) :=
  if st.any (fun e => e.1 == key) then
    st.map (fun e => if e.1 == key then (e.1, e.2.1 + value, e.2.2) else e)
  else st ++ [(key, value, ttl)]

/-- Modelled from the spec: the shared store's batched read
(DualCache.async_batch_get_cache, outside src). Returns one value per
requested key in order; an absent key reads as None, never as an error. -/
def ledgerBatchGet (st : List (String × ℚ × Int)) (keys : List String) :
    Except PyError (Option (List (Option ℚ))) :=
  Except.ok (some (keys.map (fun k => (st.find? (fun e => e.1 == k)).map (fun e => e.2.1))))

/-- A concrete ProviderBudgetLimiting over String deployments for test
scenarios: each deployment record is identified with its provider name and
the provider derivation always succeeds. -/
def plbTest (config : List (String × ProviderBudgetInfo)) :
    ProviderBudgetLimiting String :=
  { provider_budget_config := config, get_llm_provider := fun d => Except.ok d }

/-- The admission predicate the second loop applies to one candidate
(derived characterization, used to state what `filterDeployments`
computes): admitted exactly when the provider derivation succeeds, the
provider is in the budgeted dict, and its mapped spend is strictly below
the limit. -/
def eligibleB {Dep : Type} (plb : ProviderBudgetLimiting Dep)
    (provider_configs : List (String × ProviderBudgetInfo))
    (provider_spend_map : List (String × ℚ)) (deployment : Dep) : Bool :=
  match _get_llm_provider_for_deployment plb deployment with
  | Except.error _ => false
  | Except.ok provider =>
    match dictGet provider_configs provider with
    | none => false
    | some budget_config =>
      decide ((dictGet provider_spend_map provider).getD 0 < budget_config.budget_limit)

theorem dictGet_mem {α : Type} {d : List (String × α)} {k : String} {v : α}
    (h : dictGet d k = some v) : (k, v) ∈ d := by
  unfold dictGet at h
  cases hf : d.find? (fun e => e.1 == k) with
  | none => rw [hf] at h; exact Option.noConfusion h
  | some e =>
    rw [hf] at h
    have hmem := List.mem_of_find?_eq_some hf
    have hkey := List.find?_some hf
    have hk : e.1 = k := by simpa using hkey
    have hv : e.2 = v := by simpa using h
    have he : e = (k, v) := by
      cases e
      simp_all
    rwa [he] at hmem

theorem dictGet_eq_none_of_not_mem {α : Type} {d : List (String × α)} {k : String}
    (h : k ∉ d.map (fun e => e.1)) : dictGet d k = none := by
  unfold dictGet
  rw [List.find?_eq_none.mpr]
  · rfl
  · intro e he
    simp only [beq_iff_eq]
    intro hk
    exact h (List.mem_map.mpr ⟨e, he, hk⟩)

theorem mem_budgetedConfigs {pcs : List (String × Option ProviderBudgetInfo)}
    {p : String} {c : ProviderBudgetInfo} (h : (p, c) ∈ budgetedConfigs pcs) :
    (p, some c) ∈ pcs := by
  unfold budgetedConfigs at h
  rcases List.mem_filterMap.mp h with ⟨⟨q, v⟩, he, hfe⟩
  cases v with
  | none => exact Option.noConfusion hfe
  | some c0 =>
    simp only [Option.map_some', Option.some.injEq, Prod.mk.injEq] at hfe
    obtain ⟨rfl, rfl⟩ := hfe
    exact he

/-- Every entry of the dict built by the first loop carries the budget
config the registry assigns to its key. -/
theorem collectAux_values {Dep : Type} (plb : ProviderBudgetLimiting Dep) :
    ∀ (ds : List Dep) (acc pcs : List (String × Option ProviderBudgetInfo)),
      (∀ e ∈ acc, e.2 = _get_budget_config_for_provider plb e.1) →
      collectProviderConfigsAux plb ds acc = Except.ok pcs →
      ∀ e ∈ pcs, e.2 = _get_budget_config_for_provider plb e.1 := by
  intro ds
  induction ds with
  | nil =>
    intro acc pcs hacc h
    unfold collectProviderConfigsAux at h
    cases h
    exact hacc
  | cons d ds ih =>
    intro acc pcs hacc h
    unfold collectProviderConfigsAux at h
    split at h
    · exact Except.noConfusion h
    · next provider _ =>
      refine ih _ pcs ?_ h
      intro e he
      unfold dictInsert at he
      split at he
      · rcases List.mem_map.mp he with ⟨e0, he0, hfe⟩
        by_cases hk : e0.1 == provider
        · rw [if_pos hk] at hfe
          subst hfe
          rfl
        · rw [if_neg hk] at hfe
          subst hfe
          exact hacc e0 he0
      · rcases List.mem_append.mp he with h1 | h1
        · exact hacc e h1
        · rcases List.mem_singleton.mp h1 with rfl
          rfl

theorem collectProviderConfigs_values {Dep : Type} (plb : ProviderBudgetLimiting Dep)
    {healthy : List Dep} {pcs : List (String × Option ProviderBudgetInfo)}
    (h : collectProviderConfigs plb healthy = Except.ok pcs) :
    ∀ e ∈ pcs, e.2 = _get_budget_config_for_provider plb e.1 :=
  collectAux_values plb healthy [] pcs (by intro e he; cases he) h

/-- The second loop computes exactly the filter by the admission
predicate. -/
theorem filterDeployments_eq_filter {Dep : Type} (plb : ProviderBudgetLimiting Dep)
    (pc : List (String × ProviderBudgetInfo)) (sm : List (String × ℚ)) :
    ∀ (ds out : List Dep), filterDeployments plb pc sm ds = Except.ok out →
      out = ds.filter (eligibleB plb pc sm) := by
  intro ds
  induction ds with
  | nil =>
    intro out h
    unfold filterDeployments at h
    cases h
    rfl
  | cons d ds ih =>
    intro out h
    unfold filterDeployments at h
    split at h
    · exact Except.noConfusion h
    · next provider hp =>
      split at h
      · next hc =>
        have hel : eligibleB plb pc sm d = false := by
          simp only [eligibleB, hp, hc]
        rw [List.filter_cons_of_neg (by simp [hel]), ih out h]
      · next budget_config hc =>
        simp only at h
        split at h
        · next hle =>
          have hel : eligibleB plb pc sm d = false := by
            simp only [eligibleB, hp, hc, decide_eq_false_iff_not]
            exact not_lt.mpr hle
          rw [List.filter_cons_of_neg (by simp [hel]), ih out h]
        · next hle =>
          split at h
          · exact Except.noConfusion h
          · next rest hr =>
            cases h
            have hel : eligibleB plb pc sm d = true := by
              simp only [eligibleB, hp, hc, decide_eq_true_eq]
              exact lt_of_not_le hle
            rw [List.filter_cons_of_pos (by simp [hel]), ih rest hr]

/-- The second loop cannot fail when every candidate's provider derivation
succeeds. -/
theorem filterDeployments_isOk {Dep : Type} (plb : ProviderBudgetLimiting Dep)
    (pc : List (String × ProviderBudgetInfo)) (sm : List (String × ℚ)) :
    ∀ ds : List Dep, (∀ d ∈ ds, ∃ p, _get_llm_provider_for_deployment plb d = Except.ok p) →
      ∃ out, filterDeployments plb pc sm ds = Except.ok out := by
  intro ds
  induction ds with
  | nil => intro _; exact ⟨[], rfl⟩
  | cons d ds ih =>
    intro hds
    rcases hds d (List.mem_cons_self d ds) with ⟨p, hp⟩
    rcases ih (fun d hd => hds d (List.mem_cons_of_mem _ hd)) with ⟨out, hout⟩
    unfold filterDeployments
    simp only [hp]
    cases hc : dictGet pc p with
    | none => simp only [hc]; exact ⟨out, hout⟩
    | some budget_config =>
      simp only [hc]
      by_cases hle : budget_config.budget_limit ≤ (dictGet sm p).getD 0
      · refine ⟨out, ?_⟩
        rw [if_pos hle]
        exact hout
      · refine ⟨d :: out, ?_⟩
        rw [if_neg hle, hout]

/-- Every candidate's provider derivation succeeds when the first loop
succeeded. -/
theorem collectAux_derivations_ok {Dep : Type} (plb : ProviderBudgetLimiting Dep) :
    ∀ (ds : List Dep) (acc pcs : List (String × Option ProviderBudgetInfo)),
      collectProviderConfigsAux plb ds acc = Except.ok pcs →
      ∀ d ∈ ds, ∃ p, _get_llm_provider_for_deployment plb d = Except.ok p := by
  intro ds
  induction ds with
  | nil => intro acc pcs _ d hd; cases hd
  | cons d0 ds ih =>
    intro acc pcs h d hd
    unfold collectProviderConfigsAux at h
    split at h
    · exact Except.noConfusion h
    · next provider hp =>
      rcases List.mem_cons.mp hd with rfl | hd0
      · exact ⟨provider, hp⟩
      · exact ih _ pcs h d hd0

/-- Inversion of a successful run of the filter body: the intermediate
stages it went through. -/
theorem potential_deployments_of_ok_inv {Dep : Type} (plb : ProviderBudgetLimiting Dep)
    (rc : List String → Except PyError (Option (List (Option ℚ))))
    (healthy pot : List Dep)
    (h : potential_deployments_of plb rc healthy = Except.ok pot) :
    ∃ pcs sp sm,
      collectProviderConfigs plb healthy = Except.ok pcs ∧
      rc (cacheKeysOf (budgetedConfigs pcs)) = Except.ok sp ∧
      buildSpendMap (normalizeSpends sp (budgetedConfigs pcs).length)
        ((budgetedConfigs pcs).map (fun e => e.1)) 0 = Except.ok sm ∧
      filterDeployments plb (budgetedConfigs pcs) sm healthy = Except.ok pot := by
  unfold potential_deployments_of at h
  split at h
  · exact Except.noConfusion h
  · next pcs hc =>
    split at h
    · exact Except.noConfusion h
    · next sp hrc =>
      split at h
      · exact Except.noConfusion h
      · next sm hsm => exact ⟨pcs, sp, sm, hc, hrc, hsm, h⟩

/-- Inversion of async_get_available_deployments returning a deployment:
the returned deployment is a member of `potential_deployments`. -/
theorem async_some_mem {Dep : Type} (plb : ProviderBudgetLimiting Dep)
    (rc : List String → Except PyError (Option (List (Option ℚ))))
    (healthy : List Dep) (rng : Nat) (d : Dep)
    (h : async_get_available_deployments plb rc healthy rng = Except.ok (some d)) :
    ∃ pot, potential_deployments_of plb rc healthy = Except.ok pot ∧ d ∈ pot := by
  unfold async_get_available_deployments at h
  split at h
  · exact Except.noConfusion h
  · next pot hp =>
    split at h
    · exact Option.noConfusion (Except.ok.inj h)
    · refine ⟨pot, hp, ?_⟩
      exact List.getElem?_mem (Except.ok.inj h)

/-- C1 counterexample: the budget registry contains only "openai"; the
single candidate derives the provider "azure", which has no budget entry,
and the ledger is empty. The claim predicts the candidate is among the
deployments the uniform random choice is made from — with one candidate
the filter would then have to return it — but the code's `continue` for
providers without a budget config skips it and the filter returns None. -/
theorem c1_no_budget_candidate_skipped_cex :
    async_get_available_deployments (plbTest [("openai", ⟨100, "1d"⟩)])
        (ledgerBatchGet []) ["azure"] 0 = Except.ok none ∧
    async_get_available_deployments (plbTest [("openai", ⟨100, "1d"⟩)])
        (ledgerBatchGet []) ["azure"] 0 ≠ Except.ok (some "azure") := by
  refine ⟨rfl, ?_⟩
  decide

/-- C1 as amended: a deployment whose derived provider has no entry in the
budget registry is never the deployment selectDeployment returns — it is
excluded from the set the uniform random choice is made from — regardless
of the ledger state (the batch read function is arbitrary). -/
theorem c1_no_budget_provider_never_selected {Dep : Type}
    (plb : ProviderBudgetLimiting Dep)
    (rc : List String → Except PyError (Option (List (Option ℚ))))
    (healthy : List Dep) (rng : Nat) (d : Dep) (p : String) (r : Option Dep)
    (hd : _get_llm_provider_for_deployment plb d = Except.ok p)
    (hp : _get_budget_config_for_provider plb p = none)
    (hres : async_get_available_deployments plb rc healthy rng = Except.ok r) :
    r ≠ some d := by
  rintro rfl
  rcases async_some_mem plb rc healthy rng d hres with ⟨pot, hpot, hdpot⟩
  rcases potential_deployments_of_ok_inv plb rc healthy pot hpot with
    ⟨pcs, sp, sm, hc, _, _, hfd⟩
  rw [filterDeployments_eq_filter plb (budgetedConfigs pcs) sm healthy pot hfd] at hdpot
  have hel := List.of_mem_filter hdpot
  simp only [eligibleB, hd] at hel
  cases hcfg : dictGet (budgetedConfigs pcs) p with
  | none =>
    simp only [hcfg] at hel
    exact Bool.noConfusion hel
  | some cfg =>
    have hmem := mem_budgetedConfigs (dictGet_mem hcfg)
    have := collectProviderConfigs_values plb hc (p, some cfg) hmem
    simp only at this
    rw [hp] at this
    exact Option.noConfusion this

/-- C1 witness for the amended theorem: a second candidate with a budgeted,
under-limit provider is returned while the unbudgeted "azure" candidate
never is. -/
theorem c1_witness :
    _get_llm_provider_for_deployment (plbTest [("openai", ⟨100, "1d"⟩)]) "azure" =
      Except.ok "azure" ∧
    _get_budget_config_for_provider (plbTest [("openai", ⟨100, "1d"⟩)]) "azure" = none ∧
    async_get_available_deployments (plbTest [("openai", ⟨100, "1d"⟩)])
        (ledgerBatchGet []) ["azure", "openai"] 0 = Except.ok (some "openai") ∧
    (some "openai" : Option String) ≠ some "azure" :=
  ⟨rfl, rfl, rfl,
    c1_no_budget_provider_never_selected (plbTest [("openai", ⟨100, "1d"⟩)])
      (ledgerBatchGet []) ["azure", "openai"] 0 "azure" "azure" (some "openai")
      rfl rfl rfl⟩

/-- C2: for a candidate whose derived provider has a budget config in the
budgeted dict, membership in `potential_deployments` (the list the random
choice is made from) holds exactly when the provider's mapped current
spend is strictly below the budget limit; in particular spend equal to the
limit excludes the candidate. -/
theorem c2_budgeted_eligible_iff_spend_lt_limit {Dep : Type}
    (plb : ProviderBudgetLimiting Dep)
    (pc : List (String × ProviderBudgetInfo)) (sm : List (String × ℚ))
    (ds out : List Dep) (d : Dep) (p : String) (cfg : ProviderBudgetInfo)
    (hfd : filterDeployments plb pc sm ds = Except.ok out)
    (hmem : d ∈ ds)
    (hd : _get_llm_provider_for_deployment plb d = Except.ok p)
    (hcfg : dictGet pc p = some cfg) :
    (d ∈ out ↔ (dictGet sm p).getD 0 < cfg.budget_limit) ∧
    ((dictGet sm p).getD 0 = cfg.budget_limit → d ∉ out) := by
  have hout := filterDeployments_eq_filter plb pc sm ds out hfd
  subst hout
  have hiff : d ∈ ds.filter (eligibleB plb pc sm) ↔
      (dictGet sm p).getD 0 < cfg.budget_limit := by
    rw [List.mem_filter]
    constructor
    · rintro ⟨-, hel⟩
      simp only [eligibleB, hd, hcfg, decide_eq_true_eq] at hel
      exact hel
    · intro hlt
      refine ⟨hmem, ?_⟩
      simp only [eligibleB, hd, hcfg, decide_eq_true_eq]
      exact hlt
  refine ⟨hiff, ?_⟩
  intro heq hin
  exact absurd (hiff.mp hin) (by rw [heq]; exact lt_irrefl _)

/-- C2 witness: provider "openai" with limit 100 and current spend exactly
100 — the candidate is excluded (the boundary case). -/
theorem c2_witness :
    filterDeployments (plbTest [("openai", ⟨100, "1d"⟩)])
        [("openai", ⟨100, "1d"⟩)] [("openai", 100)] ["openai"] =
      Except.ok ([] : List String) ∧
    (("openai" ∈ ([] : List String)) ↔
      (dictGet [("openai", (100 : ℚ))] "openai").getD 0 < (100 : ℚ)) ∧
    ((dictGet [("openai", (100 : ℚ))] "openai").getD 0 = (100 : ℚ) →
      "openai" ∉ ([] : List String)) :=
  ⟨rfl,
    (c2_budgeted_eligible_iff_spend_lt_limit (plbTest [("openai", ⟨100, "1d"⟩)])
      [("openai", ⟨100, "1d"⟩)] [("openai", 100)] ["openai"] []
      "openai" "openai" ⟨100, "1d"⟩ rfl (by decide) rfl rfl).1,
    (c2_budgeted_eligible_iff_spend_lt_limit (plbTest [("openai", ⟨100, "1d"⟩)])
      [("openai", ⟨100, "1d"⟩)] [("openai", 100)] ["openai"] []
      "openai" "openai" ⟨100, "1d"⟩ rfl (by decide) rfl rfl).2⟩

/-- C3 counterexample: a completion event for provider "azure", which has
no budget entry, makes async_log_success_event raise
ValueError("No budget config found for provider azure") — the claim
predicts a silent no-op with no error. -/
theorem c3_recorder_not_noop_cex :
    async_log_success_event (plbTest [("openai", ⟨100, "1d"⟩)])
        ⟨some ⟨some 5⟩, some "azure"⟩ =
      Except.error (.valueError "No budget config found for provider azure") := rfl

/-- C3 as amended: for every completion event whose provider has no
BudgetDefinition in the registry, the spend recorder raises a ValueError
naming the provider; it is not a no-op, and (failing) it issues no ledger
increment. -/
theorem c3_recorder_raises_without_budget {Dep : Type}
    (plb : ProviderBudgetLimiting Dep) (kwargs : SuccessEventKwargs)
    (payload : StandardLoggingPayload) (p : String)
    (hpay : kwargs.standard_logging_object = some payload)
    (hprov : kwargs.custom_llm_provider = some p)
    (hcfg : _get_budget_config_for_provider plb p = none) :
    async_log_success_event plb kwargs =
      Except.error (.valueError ("No budget config found for provider " ++ p)) := by
  unfold async_log_success_event
  rw [hpay]
  simp only
  rw [hprov]
  simp only
  rw [hcfg]

/-- C3 witness: the amended theorem at the concrete event of the
counterexample. -/
theorem c3_witness :
    (SuccessEventKwargs.mk (some ⟨some 5⟩) (some "azure")).standard_logging_object =
      some ⟨some 5⟩ ∧
    (SuccessEventKwargs.mk (some ⟨some 5⟩) (some "azure")).custom_llm_provider =
      some "azure" ∧
    _get_budget_config_for_provider (plbTest [("openai", ⟨100, "1d"⟩)]) "azure" = none ∧
    async_log_success_event (plbTest [("openai", ⟨100, "1d"⟩)])
        ⟨some ⟨some 5⟩, some "azure"⟩ =
      Except.error (.valueError ("No budget config found for provider " ++ "azure")) :=
  ⟨rfl, rfl, rfl,
    c3_recorder_raises_without_budget (plbTest [("openai", ⟨100, "1d"⟩)])
      ⟨some ⟨some 5⟩, some "azure"⟩ ⟨some 5⟩ "azure" rfl rfl rfl⟩

/-- C4 counterexample: a completion event whose logging payload is present
but carries no response_cost, for budgeted provider "openai": the recorder
does not raise — it records a spend increment of 0 (the
`.get("response_cost", 0)` default), exactly what the claim says never
happens. -/
theorem c4_missing_cost_recorded_as_zero_cex :
    async_log_success_event (plbTest [("openai", ⟨100, "1d"⟩)])
        ⟨some ⟨none⟩, some "openai"⟩ =
      Except.ok ("provider_spend:openai:1d", 0, 86400) := rfl

/-- C4 as amended: the recorder raises a ValueError when the whole logging
payload is missing, and when the provider identifier is missing; but a
missing cost value inside a present payload is silently defaulted to 0
and recorded as a 0 increment (it does not raise). -/
theorem c4_recorder_missing_field_behaviour {Dep : Type}
    (plb : ProviderBudgetLimiting Dep) :
    (∀ kwargs : SuccessEventKwargs, kwargs.standard_logging_object = none →
      async_log_success_event plb kwargs =
        Except.error (.valueError "standard_logging_payload is required")) ∧
    (∀ (kwargs : SuccessEventKwargs) (payload : StandardLoggingPayload),
      kwargs.standard_logging_object = some payload →
      kwargs.custom_llm_provider = none →
      async_log_success_event plb kwargs =
        Except.error (.valueError "custom_llm_provider is required")) ∧
    (∀ (p : String) (cfg : ProviderBudgetInfo) (ttl : Int),
      _get_budget_config_for_provider plb p = some cfg →
      get_ttl_seconds cfg.time_period = Except.ok ttl →
      async_log_success_event plb ⟨some ⟨none⟩, some p⟩ =
        Except.ok ("provider_spend:" ++ p ++ ":" ++ cfg.time_period, 0, ttl)) := by
  refine ⟨?_, ?_, ?_⟩
  · intro kwargs hpay
    unfold async_log_success_event
    rw [hpay]
  · intro kwargs payload hpay hprov
    unfold async_log_success_event
    rw [hpay]
    simp only
    rw [hprov]
  · intro p cfg ttl hcfg httl
    unfold async_log_success_event
    simp only [hcfg, httl]
    rfl

/-- C4 witness: the third branch of the amended theorem at the concrete
input of the counterexample (payload present, cost missing, provider
"openai" budgeted). -/
theorem c4_witness :
    _get_budget_config_for_provider (plbTest [("openai", ⟨100, "1d"⟩)]) "openai" =
      some ⟨100, "1d"⟩ ∧
    get_ttl_seconds (ProviderBudgetInfo.mk 100 "1d").time_period = Except.ok 86400 ∧
    async_log_success_event (plbTest [("openai", ⟨100, "1d"⟩)])
        ⟨some ⟨none⟩, some "openai"⟩ =
      Except.ok ("provider_spend:" ++ "openai" ++ ":" ++
        (ProviderBudgetInfo.mk 100 "1d").time_period, 0, 86400) :=
  ⟨rfl, rfl,
    (c4_recorder_missing_field_behaviour (plbTest [("openai", ⟨100, "1d"⟩)])).2.2
      "openai" ⟨100, "1d"⟩ 86400 rfl rfl⟩

/-- C7: get_ttl_seconds maps "1d" to 86400 seconds and "30d" to 2592000
seconds, raises ValueError for "7x", and in general returns a value
exactly when the period string ends in "d" and the remainder is a valid
Python int literal — otherwise it raises, never silently defaulting. -/
theorem c7_get_ttl_seconds_spec :
    get_ttl_seconds "1d" = Except.ok 86400 ∧
    get_ttl_seconds "30d" = Except.ok 2592000 ∧
    get_ttl_seconds "7x" =
      Except.error (.valueError "Unsupported time period format: 7x") ∧
    ∀ s : String, (∃ n, get_ttl_seconds s = Except.ok n) ↔
      (endsWithD s = true ∧ (pyInt (dropLastChar s)).isSome = true) := by
  refine ⟨rfl, rfl, rfl, ?_⟩
  intro s
  constructor
  · rintro ⟨n, hn⟩
    unfold get_ttl_seconds at hn
    split at hn
    · next hend =>
      split at hn
      · next days hpi =>
        exact ⟨hend, by rw [hpi]; rfl⟩
      · exact Except.noConfusion hn
    · exact Except.noConfusion hn
  · rintro ⟨hend, hsome⟩
    rcases Option.isSome_iff_exists.mp hsome with ⟨days, hpi⟩
    refine ⟨days * 24 * 60 * 60, ?_⟩
    unfold get_ttl_seconds
    simp only [hend, hpi, if_true]

theorem ledgerIncrement_nil (k : String) (v : ℚ) (t : Int) :
    ledgerIncrement [] k v t = [(k, v, t)] := rfl

/-- C5: recording a cost c for provider p (with budget period tp) when no
counter exists issues an increment whose key is exactly the key the
admission filter's batch read uses for p, whose amount is c and whose TTL
is the period converted to seconds; applying that increment to an empty
ledger and reading back through the filter's key list yields exactly c,
and the filter's spend-map construction turns that read into spend c for
p. -/
theorem c5_recorder_filter_roundtrip {Dep : Type} (plb : ProviderBudgetLimiting Dep)
    (p tp : String) (c limit : ℚ) (ttl : Int)
    (hcfg : _get_budget_config_for_provider plb p = some ⟨limit, tp⟩)
    (httl : get_ttl_seconds tp = Except.ok ttl) :
    async_log_success_event plb ⟨some ⟨some c⟩, some p⟩ =
      Except.ok ("provider_spend:" ++ p ++ ":" ++ tp, c, ttl) ∧
    cacheKeysOf [(p, ⟨limit, tp⟩)] = ["provider_spend:" ++ p ++ ":" ++ tp] ∧
    ledgerBatchGet
        (ledgerIncrement [] ("provider_spend:" ++ p ++ ":" ++ tp) c ttl)
        (cacheKeysOf [(p, ⟨limit, tp⟩)]) = Except.ok (some [some c]) ∧
    buildSpendMap [some c] [p] 0 = Except.ok [(p, c)] := by
  refine ⟨?_, rfl, ?_, rfl⟩
  · unfold async_log_success_event
    simp only [hcfg, httl]
    rfl
  · rw [ledgerIncrement_nil]
    unfold ledgerBatchGet cacheKeysOf
    simp

/-- C5 witness: provider "openai", period "1d", cost 12.5, limit 100. -/
theorem c5_witness :
    _get_budget_config_for_provider (plbTest [("openai", ⟨100, "1d"⟩)]) "openai" =
      some ⟨100, "1d"⟩ ∧
    get_ttl_seconds "1d" = Except.ok 86400 ∧
    async_log_success_event (plbTest [("openai", ⟨100, "1d"⟩)])
        ⟨some ⟨some (25 / 2)⟩, some "openai"⟩ =
      Except.ok ("provider_spend:" ++ "openai" ++ ":" ++ "1d", 25 / 2, 86400) ∧
    ledgerBatchGet
        (ledgerIncrement [] ("provider_spend:" ++ "openai" ++ ":" ++ "1d") (25 / 2) 86400)
        (cacheKeysOf [("openai", ⟨100, "1d"⟩)]) = Except.ok (some [some (25 / 2)]) :=
  ⟨rfl, rfl,
    (c5_recorder_filter_roundtrip (plbTest [("openai", ⟨100, "1d"⟩)])
      "openai" "1d" (25 / 2) 100 86400 rfl rfl).1,
    (c5_recorder_filter_roundtrip (plbTest [("openai", ⟨100, "1d"⟩)])
      "openai" "1d" (25 / 2) 100 86400 rfl rfl).2.2.1⟩

theorem dictInsert_keys_nodup {α : Type} (d : List (String × α)) (k : String) (v : α)
    (h : (d.map (fun e => e.1)).Nodup) :
    ((dictInsert d k v).map (fun e => e.1)).Nodup := by
  unfold dictInsert
  by_cases hany : d.any (fun e => e.1 == k) = true
  · rw [if_pos hany, List.map_map]
    have hmaps :
        d.map ((fun e => e.1) ∘ (fun e => if e.1 == k then (k, v) else e)) =
          d.map (fun e => e.1) := by
      apply List.map_eq_map_iff.mpr
      intro e he
      by_cases hk : e.1 == k
      · simp only [Function.comp_apply, if_pos hk]
        exact (eq_of_beq hk).symm
      · simp only [Function.comp_apply, if_neg hk]
    rw [hmaps]
    exact h
  · rw [if_neg hany, List.map_append]
    refine List.Nodup.append h (List.nodup_singleton k) ?_
    intro x hx hk
    rcases List.mem_map.mp hx with ⟨e, he, rfl⟩
    rcases List.mem_singleton.mp hk with rfl
    exact hany (List.any_eq_true.mpr ⟨e, he, beq_self_eq_true e.1⟩)

theorem collectAux_keys_nodup {Dep : Type} (plb : ProviderBudgetLimiting Dep) :
    ∀ (ds : List Dep) (acc pcs : List (String × Option ProviderBudgetInfo)),
      (acc.map (fun e => e.1)).Nodup →
      collectProviderConfigsAux plb ds acc = Except.ok pcs →
      (pcs.map (fun e => e.1)).Nodup := by
  intro ds
  induction ds with
  | nil =>
    intro acc pcs hacc h
    unfold collectProviderConfigsAux at h
    cases h
    exact hacc
  | cons d ds ih =>
    intro acc pcs hacc h
    unfold collectProviderConfigsAux at h
    split at h
    · exact Except.noConfusion h
    · next provider _ =>
      exact ih _ pcs (dictInsert_keys_nodup acc provider _ hacc) h

theorem budgetedConfigs_keys_sublist (pcs : List (String × Option ProviderBudgetInfo)) :
    ((budgetedConfigs pcs).map (fun e => e.1)).Sublist (pcs.map (fun e => e.1)) := by
  induction pcs with
  | nil => simp [budgetedConfigs]
  | cons e pcs ih =>
    rcases e with ⟨q, v⟩
    cases v with
    | none =>
      simpa [budgetedConfigs, List.filterMap_cons] using List.Sublist.cons q ih
    | some c =>
      simpa [budgetedConfigs, List.filterMap_cons] using List.Sublist.cons₂ q ih

/-- C6: the batch spend lookup of selectDeployment requests each distinct
(provider, period) pair at most once even when several candidates share a
provider (the key list is duplicate-free), providers without a
BudgetDefinition never contribute a lookup key, and the whole outcome
depends on the batch read function only through its single application to
that one key list — the embedding of the single batch call. -/
theorem c6_batch_lookup_dedup {Dep : Type} (plb : ProviderBudgetLimiting Dep)
    (healthy : List Dep) (pcs : List (String × Option ProviderBudgetInfo))
    (hc : collectProviderConfigs plb healthy = Except.ok pcs) :
    ((budgetedConfigs pcs).map (fun e => (e.1, e.2.time_period))).Nodup ∧
    (∀ p : String, _get_budget_config_for_provider plb p = none →
      p ∉ (budgetedConfigs pcs).map (fun e => e.1)) ∧
    (∀ rc1 rc2 : List String → Except PyError (Option (List (Option ℚ))),
      rc1 (cacheKeysOf (budgetedConfigs pcs)) = rc2 (cacheKeysOf (budgetedConfigs pcs)) →
      ∀ rng : Nat, async_get_available_deployments plb rc1 healthy rng =
        async_get_available_deployments plb rc2 healthy rng) := by
  have hkeys : ((budgetedConfigs pcs).map (fun e => e.1)).Nodup :=
    (budgetedConfigs_keys_sublist pcs).nodup
      (collectAux_keys_nodup plb healthy [] pcs (by simp) hc)
  refine ⟨?_, ?_, ?_⟩
  · apply List.Nodup.of_map Prod.fst
    rw [List.map_map]
    exact hkeys
  · intro p hp hmem
    rcases List.mem_map.mp hmem with ⟨e, he, rfl⟩
    rcases e with ⟨q, cfg⟩
    have hq := collectProviderConfigs_values plb hc (q, some cfg)
      (mem_budgetedConfigs he)
    simp only at hq
    rw [hp] at hq
    exact Option.noConfusion hq
  · intro rc1 rc2 hrc rng
    unfold async_get_available_deployments potential_deployments_of
    simp only [hc]
    rw [hrc]

/-- C6 witness: two openai candidates and one anthropic candidate — the
key-pair list is duplicate-free and the unbudgeted "azure" contributes no
key. -/
theorem c6_witness :
    collectProviderConfigs
        (plbTest [("openai", ⟨100, "1d"⟩), ("anthropic", ⟨50, "1d"⟩)])
        ["openai", "openai", "anthropic"] =
      Except.ok [("openai", some ⟨100, "1d"⟩), ("anthropic", some ⟨50, "1d"⟩)] ∧
    ((budgetedConfigs
        [("openai", some ⟨100, "1d"⟩), ("anthropic", some ⟨50, "1d"⟩)]).map
        (fun e => (e.1, e.2.time_period))).Nodup ∧
    "azure" ∉ (budgetedConfigs
        [("openai", some ⟨100, "1d"⟩), ("anthropic", some ⟨50, "1d"⟩)]).map
        (fun e => e.1) := by
  refine ⟨rfl, ?_, ?_⟩
  · exact (c6_batch_lookup_dedup
      (plbTest [("openai", ⟨100, "1d"⟩), ("anthropic", ⟨50, "1d"⟩)])
      ["openai", "openai", "anthropic"]
      [("openai", some ⟨100, "1d"⟩), ("anthropic", some ⟨50, "1d"⟩)] rfl).1
  · exact (c6_batch_lookup_dedup
      (plbTest [("openai", ⟨100, "1d"⟩), ("anthropic", ⟨50, "1d"⟩)])
      ["openai", "openai", "anthropic"]
      [("openai", some ⟨100, "1d"⟩), ("anthropic", some ⟨50, "1d"⟩)] rfl).2.1
      "azure" rfl

/-- C8: when no candidate is admitted by the filter predicate (in
particular when every budgeted candidate's provider is at or over its
limit — note the code also skips unbudgeted candidates), selectDeployment
returns None as a normal, non-exceptional outcome, for every random
index. -/
theorem c8_returns_none_when_none_eligible {Dep : Type}
    (plb : ProviderBudgetLimiting Dep)
    (rc : List String → Except PyError (Option (List (Option ℚ))))
    (healthy : List Dep) (rng : Nat)
    (pcs : List (String × Option ProviderBudgetInfo))
    (sp : Option (List (Option ℚ))) (sm : List (String × ℚ))
    (hc : collectProviderConfigs plb healthy = Except.ok pcs)
    (hrc : rc (cacheKeysOf (budgetedConfigs pcs)) = Except.ok sp)
    (hsm : buildSpendMap (normalizeSpends sp (budgetedConfigs pcs).length)
        ((budgetedConfigs pcs).map (fun e => e.1)) 0 = Except.ok sm)
    (hover : healthy.all (fun d => !(eligibleB plb (budgetedConfigs pcs) sm d)) = true) :
    async_get_available_deployments plb rc healthy rng = Except.ok none := by
  have hder := collectAux_derivations_ok plb healthy [] pcs hc
  rcases filterDeployments_isOk plb (budgetedConfigs pcs) sm healthy hder with ⟨out, hout⟩
  have hfil := filterDeployments_eq_filter plb (budgetedConfigs pcs) sm healthy out hout
  have hnil : out = [] := by
    rw [hfil]
    apply List.filter_eq_nil_iff.mpr
    intro a ha
    have hb := List.all_eq_true.mp hover a ha
    simp only [Bool.not_eq_true'] at hb
    simp [hb]
  unfold async_get_available_deployments potential_deployments_of
  simp only [hc, hrc, hsm, hout, hnil]
  rfl

/-- C8 witness: a single openai candidate whose spend exactly equals the
limit — the selector returns None without raising. -/
theorem c8_witness :
    collectProviderConfigs (plbTest [("openai", ⟨100, "1d"⟩)]) ["openai"] =
      Except.ok [("openai", some ⟨100, "1d"⟩)] ∧
    ledgerBatchGet [("provider_spend:openai:1d", 100, 86400)]
        (cacheKeysOf (budgetedConfigs [("openai", some ⟨100, "1d"⟩)])) =
      Except.ok (some [some 100]) ∧
    buildSpendMap
        (normalizeSpends (some [some 100])
          (budgetedConfigs [("openai", some ⟨100, "1d"⟩)]).length)
        ((budgetedConfigs [("openai", some ⟨100, "1d"⟩)]).map (fun e => e.1)) 0 =
      Except.ok [("openai", 100)] ∧
    (["openai"].all (fun d =>
      !(eligibleB (plbTest [("openai", ⟨100, "1d"⟩)])
        (budgetedConfigs [("openai", some ⟨100, "1d"⟩)]) [("openai", 100)] d))) = true ∧
    async_get_available_deployments (plbTest [("openai", ⟨100, "1d"⟩)])
        (ledgerBatchGet [("provider_spend:openai:1d", 100, 86400)]) ["openai"] 0 =
      Except.ok none :=
  ⟨rfl, rfl, rfl, rfl,
    c8_returns_none_when_none_eligible (plbTest [("openai", ⟨100, "1d"⟩)])
      (ledgerBatchGet [("provider_spend:openai:1d", 100, 86400)]) ["openai"] 0
      [("openai", some ⟨100, "1d"⟩)] (some [some 100]) [("openai", 100)]
      rfl rfl rfl rfl⟩

theorem collectAux_error_inv {Dep : Type} (plb : ProviderBudgetLimiting Dep) :
    ∀ (ds : List Dep) (acc : List (String × Option ProviderBudgetInfo)) (e : PyError),
      collectProviderConfigsAux plb ds acc = Except.error e →
      ∃ d ∈ ds, _get_llm_provider_for_deployment plb d = Except.error e := by
  intro ds
  induction ds with
  | nil =>
    intro acc e h
    exact Except.noConfusion h
  | cons d0 ds ih =>
    intro acc e h
    unfold collectProviderConfigsAux at h
    split at h
    · next e0 hp =>
      cases h
      exact ⟨d0, List.mem_cons_self d0 ds, hp⟩
    · next provider hp =>
      rcases ih _ e h with ⟨d, hd, hde⟩
      exact ⟨d, List.mem_cons_of_mem d0 hd, hde⟩

/-- C9: errors are never caught or converted into a default result —
(1) an error from building the provider dict propagates out of
selectDeployment unchanged; (2) with the dict built, an exception from the
single batch store read propagates unchanged; (3) a failing provider
derivation for the first candidate propagates unchanged; (4) an error from
the first loop always originates as some candidate's provider-derivation
error; (5) conversely a non-exceptional result is only possible when every
candidate's derivation and the store read succeeded — no error was
skipped or converted into a default result. -/
theorem c9_errors_propagate_uncaught (Dep : Type) :
    (∀ (plb : ProviderBudgetLimiting Dep)
        (rc : List String → Except PyError (Option (List (Option ℚ))))
        (healthy : List Dep) (rng : Nat) (e : PyError),
      collectProviderConfigs plb healthy = Except.error e →
      async_get_available_deployments plb rc healthy rng = Except.error e) ∧
    (∀ (plb : ProviderBudgetLimiting Dep)
        (rc : List String → Except PyError (Option (List (Option ℚ))))
        (healthy : List Dep) (rng : Nat)
        (pcs : List (String × Option ProviderBudgetInfo)) (e : PyError),
      collectProviderConfigs plb healthy = Except.ok pcs →
      rc (cacheKeysOf (budgetedConfigs pcs)) = Except.error e →
      async_get_available_deployments plb rc healthy rng = Except.error e) ∧
    (∀ (plb : ProviderBudgetLimiting Dep)
        (rc : List String → Except PyError (Option (List (Option ℚ))))
        (d : Dep) (ds : List Dep) (rng : Nat) (e : PyError),
      _get_llm_provider_for_deployment plb d = Except.error e →
      async_get_available_deployments plb rc (d :: ds) rng = Except.error e) ∧
    (∀ (plb : ProviderBudgetLimiting Dep) (healthy : List Dep) (e : PyError),
      collectProviderConfigs plb healthy = Except.error e →
      ∃ d ∈ healthy, _get_llm_provider_for_deployment plb d = Except.error e) ∧
    (∀ (plb : ProviderBudgetLimiting Dep)
        (rc : List String → Except PyError (Option (List (Option ℚ))))
        (healthy : List Dep) (rng : Nat) (r : Option Dep),
      async_get_available_deployments plb rc healthy rng = Except.ok r →
      (∀ d ∈ healthy, ∃ p, _get_llm_provider_for_deployment plb d = Except.ok p) ∧
      ∃ pcs sp, collectProviderConfigs plb healthy = Except.ok pcs ∧
        rc (cacheKeysOf (budgetedConfigs pcs)) = Except.ok sp) := by
  have h1 : ∀ (plb : ProviderBudgetLimiting Dep)
      (rc : List String → Except PyError (Option (List (Option ℚ))))
      (healthy : List Dep) (rng : Nat) (e : PyError),
      collectProviderConfigs plb healthy = Except.error e →
      async_get_available_deployments plb rc healthy rng = Except.error e := by
    intro plb rc healthy rng e hc
    unfold async_get_available_deployments potential_deployments_of
    simp only [hc]
  refine ⟨h1, ?_, ?_, ?_, ?_⟩
  · intro plb rc healthy rng pcs e hc hrc
    unfold async_get_available_deployments potential_deployments_of
    simp only [hc, hrc]
  · intro plb rc d ds rng e hp
    apply h1
    unfold collectProviderConfigs collectProviderConfigsAux
    simp only [hp]
  · intro plb healthy e hc
    exact collectAux_error_inv plb healthy [] e hc
  · intro plb rc healthy rng r h
    unfold async_get_available_deployments at h
    split at h
    · exact Except.noConfusion h
    · next pot hpot =>
      rcases potential_deployments_of_ok_inv plb rc healthy pot hpot with
        ⟨pcs, sp, sm, hc, hrc, -, -⟩
      exact ⟨collectAux_derivations_ok plb healthy [] pcs hc, pcs, sp, hc, hrc⟩

/-- The spend value `float(current_spends[idx] or 0.0)` reads at a given
index when the index is in range, and 0 otherwise (derived
characterization used to state what `buildSpendMap` computes). -/
def spendAt (spends : List (Option ℚ)) (i : Nat) : ℚ :=
  ((spends[i]?).getD none).getD 0

/-- The spend map `buildSpendMap` produces on success (derived
characterization): each provider paired with the spend read at its
enumerate index. -/
def expectedSpendMap (spends : List (Option ℚ)) :
    List String → Nat → List (String × ℚ)
  | [], _ => []
  | p :: ps, idx => (p, spendAt spends idx) :: expectedSpendMap spends ps (idx + 1)

theorem buildSpendMap_ok (spends : List (Option ℚ)) :
    ∀ (ps : List String) (idx : Nat), idx + ps.length ≤ spends.length →
      buildSpendMap spends ps idx = Except.ok (expectedSpendMap spends ps idx) := by
  intro ps
  induction ps with
  | nil => intro idx _; rfl
  | cons p ps ih =>
    intro idx hle
    have hidx : idx < spends.length := by
      simp only [List.length_cons] at hle
      omega
    have hg : spends[idx]? = some spends[idx] :=
      (List.getElem?_eq_some_getElem_iff spends idx hidx).mpr trivial
    have hrec := ih (idx + 1) (by simp only [List.length_cons] at hle; omega)
    unfold buildSpendMap
    simp only [hg, hrec]
    simp [expectedSpendMap, spendAt, hg]

theorem buildSpendMap_indexError (spends : List (Option ℚ)) :
    ∀ (ps : List String) (idx : Nat), ps ≠ [] → spends.length < idx + ps.length →
      buildSpendMap spends ps idx = Except.error PyError.indexError := by
  intro ps
  induction ps with
  | nil => intro idx hne _; exact absurd rfl hne
  | cons p ps ih =>
    intro idx _ hlt
    by_cases hidx : idx < spends.length
    · have hne : ps ≠ [] := by
        rintro rfl
        simp only [List.length_cons, List.length_nil] at hlt
        omega
      have hg : spends[idx]? = some spends[idx] :=
        (List.getElem?_eq_some_getElem_iff spends idx hidx).mpr trivial
      have hrec := ih (idx + 1) hne (by simp only [List.length_cons] at hlt; omega)
      unfold buildSpendMap
      simp only [hg, hrec]
    · have hg : spends[idx]? = none :=
        List.getElem?_eq_none_iff.mpr (by omega)
      unfold buildSpendMap
      simp only [hg]

theorem spendAt_defaultSpends (k i : Nat) : spendAt (defaultSpends k) i = 0 := by
  unfold spendAt defaultSpends
  rw [List.getElem?_replicate]
  by_cases hik : i < k
  · rw [if_pos hik]; rfl
  · rw [if_neg hik]; rfl

theorem expectedSpendMap_defaultSpends (k : Nat) :
    ∀ (ps : List String) (idx : Nat),
      expectedSpendMap (defaultSpends k) ps idx = ps.map (fun p => (p, (0 : ℚ))) := by
  intro ps
  induction ps with
  | nil => intro idx; rfl
  | cons p ps ih =>
    intro idx
    unfold expectedSpendMap
    rw [spendAt_defaultSpends, ih (idx + 1), List.map_cons]

/-- C10: the spend-map construction of selectDeployment — (1) a batch read
returning None or an empty list is replaced by the all-zero default list;
(2) with enough entries, indexing succeeds and produces the expected map,
reading each None entry as 0 via spendAt; (3) a nonempty provider list
with too few entries hits an out-of-bounds IndexError, so the
construction is error-free only under the length precondition; (4) a None
entry is read as spend 0; (5) over the default list every budgeted
provider gets spend 0; (6) with a batch read returning None the whole
selector proceeds without error. -/
theorem c10_spend_map_construction :
    (∀ (res : Option (List (Option ℚ))) (k : Nat),
      res = none ∨ res = some [] → normalizeSpends res k = defaultSpends k) ∧
    (∀ (spends : List (Option ℚ)) (ps : List String) (idx : Nat),
      idx + ps.length ≤ spends.length →
      buildSpendMap spends ps idx = Except.ok (expectedSpendMap spends ps idx)) ∧
    (∀ (spends : List (Option ℚ)) (ps : List String) (idx : Nat),
      ps ≠ [] → spends.length < idx + ps.length →
      buildSpendMap spends ps idx = Except.error PyError.indexError) ∧
    (∀ (spends : List (Option ℚ)) (i : Nat),
      spends[i]? = some none → spendAt spends i = 0) ∧
    (∀ (k : Nat) (ps : List String), ps.length ≤ k →
      buildSpendMap (defaultSpends k) ps 0 =
        Except.ok (ps.map (fun p => (p, (0 : ℚ))))) ∧
    (∀ (Dep : Type) (plb : ProviderBudgetLimiting Dep) (healthy : List Dep)
        (rng : Nat) (pcs : List (String × Option ProviderBudgetInfo)),
      collectProviderConfigs plb healthy = Except.ok pcs →
      ∃ r, async_get_available_deployments plb
        (fun _ => Except.ok none) healthy rng = Except.ok r) := by
  refine ⟨?_, buildSpendMap_ok, buildSpendMap_indexError, ?_, ?_, ?_⟩
  · rintro res k (rfl | rfl) <;> rfl
  · intro spends i h
    unfold spendAt
    rw [h]
    rfl
  · intro k ps hle
    rw [buildSpendMap_ok (defaultSpends k) ps 0
      (by simpa [defaultSpends] using hle)]
    rw [expectedSpendMap_defaultSpends]
  · intro Dep plb healthy rng pcs hc
    have hder := collectAux_derivations_ok plb healthy [] pcs hc
    have hlen : 0 + ((budgetedConfigs pcs).map (fun e => e.1)).length ≤
        (normalizeSpends none (budgetedConfigs pcs).length).length := by
      simp [normalizeSpends, defaultSpends]
    have hb := buildSpendMap_ok (normalizeSpends none (budgetedConfigs pcs).length)
      ((budgetedConfigs pcs).map (fun e => e.1)) 0 hlen
    rcases filterDeployments_isOk plb (budgetedConfigs pcs)
      (expectedSpendMap (normalizeSpends none (budgetedConfigs pcs).length)
        ((budgetedConfigs pcs).map (fun e => e.1)) 0) healthy hder with ⟨out, hout⟩
    unfold async_get_available_deployments potential_deployments_of
    simp only [hc, hb, hout]
    by_cases hemp : out.isEmpty
    · exact ⟨none, by rw [if_pos hemp]⟩
    · exact ⟨out[rng % out.length]?, by rw [if_neg hemp]⟩

end ProviderBudgets
